import Mathlib

/-!
Verification of the VUB resto menu scraper (`menuparser.py`).

The source is a small Python 2 program.  Its pure parsing core
(`normalize_text`, `check_title`, `check_date`, `parse_menu`, the per-day
loop of `parse_restaurant`, and the exception structure of
`write_to_json`) is embedded below.

Modelling conventions:
* Python strings are Lean `String`s; the character-level helpers
  (`split`, `rstrip`, `replace`, `strip`, `in`, `isdigit`, `lower`,
  `join`, indexing, `int`) are re-implemented on `List Char` with the
  names `pySplit`, `pyRstrip`, `replaceL`, `pyStrip`, `pyIn`,
  `pyIsdigit`, `pyLower`, `pyJoin`, `pyIndex`, `pyInt`, each following
  the CPython semantics restricted to ASCII text (`str.lower`,
  `str.isdigit` and `str.strip` act on more of Unicode in CPython; every
  string the claims touch is ASCII, apart from the non-breaking space
  which `normalize_text` replaces explicitly).
* Fallible Python code becomes `Except PyExc`.  A Python function that
  can raise returns `Except.error`; `datetime.date` validates its
  arguments and raises `ValueError`, `date + timedelta(days=1)` raises
  `OverflowError` past `date.max = 9999-12-31`, list indexing raises
  `IndexError`.
* The filesystem effects of `write_to_json` (`io.open`, `f.write`) are
  external; their outcomes are passed in as explicit `Except` arguments
  so that the function's own exception routing (which call sites sit
  inside the `try` block) is the object of study.
-/

/-- Python exceptions that the embedded fragments can raise. -/
inductive PyExc where
  | valueError : PyExc
  | overflowError : PyExc
  | indexError : PyExc
  | ioError : PyExc
deriving DecidableEq, Repr

instance {ε α : Type} [DecidableEq ε] [DecidableEq α] : DecidableEq (Except ε α) := fun a b =>
  match a, b with
  | Except.error x, Except.error y =>
    if h : x = y then isTrue (by rw [h]) else isFalse (fun hh => h (Except.error.inj hh))
  | Except.error _, Except.ok _ => isFalse (fun hh => Except.noConfusion hh)
  | Except.ok _, Except.error _ => isFalse (fun hh => Except.noConfusion hh)
  | Except.ok x, Except.ok y =>
    if h : x = y then isTrue (by rw [h]) else isFalse (fun hh => h (Except.ok.inj hh))

/-- Model of `pattern == text[:len(pattern)]`: the text starts with the pattern. -/
def pyStartsWith : List Char → List Char → Bool
  | [], _ => true
  | _ :: _, [] => false
  | a :: as, b :: bs => a == b && pyStartsWith as bs

/-- Model of the Python substring test `pat in text` on character lists. -/
def pyContains (pat : List Char) : List Char → Bool
  | [] => pat.isEmpty
  | c :: rest => pyStartsWith pat (c :: rest) || pyContains pat rest

/-- Model of the Python substring test `needle in haystack` on strings. -/
def pyIn (needle haystack : String) : Bool :=
  pyContains needle.data haystack.data

/-- Model of Python `str.lower` (ASCII case folding). -/
def pyLower (s : String) : String :=
  String.mk (s.data.map Char.toLower)

/-- Model of Python `str.split(sep)` for a one-character separator. -/
def pySplit (sep : Char) : List Char → List (List Char)
  | [] => [[]]
  | c :: rest =>
    if c = sep then [] :: pySplit sep rest
    else
      match pySplit sep rest with
      | h :: t => (c :: h) :: t
      | [] => [[c]]

/-- Model of Python `sep.join(parts)` for a one-character separator. -/
def pyJoin (sep : Char) : List (List Char) → List Char
  | [] => []
  | [x] => x
  | x :: y :: ys => x ++ sep :: pyJoin sep (y :: ys)

/-- Model of Python `str.rstrip(c)`: remove every trailing occurrence of `c`. -/
def pyRstrip (c : Char) (l : List Char) : List Char :=
  (l.reverse.dropWhile (fun x => x == c)).reverse

/-- Model of Python `str.isdigit` (ASCII digits): nonempty and all digits. -/
def pyIsdigit (l : List Char) : Bool :=
  !l.isEmpty && l.all (fun c => c.isDigit)

/-- Model of Python `int(s)` on a string of ASCII digits. -/
def pyInt (l : List Char) : Nat :=
  l.foldl (fun a c => 10 * a + (c.toNat - 48)) 0

/-- Model of Python list indexing `l[i]` for a nonnegative index
(`IndexError` out of range). -/
def pyIndex {α : Type} (l : List α) (i : Nat) : Except PyExc α :=
  match l.get? i with
  | some v => Except.ok v
  | none => Except.error PyExc.indexError

/-- Model of Python `str.replace(old, new)` for a nonempty `old` (every
use site passes a nonempty pattern): replace every non-overlapping
occurrence, scanning left to right.  The fuel argument, seeded with the
length of the text by `replaceL`, only makes the recursion structural:
each step consumes at least one character, so the fuel never runs out
before the text does. -/
def replaceAux (old new : List Char) : Nat → List Char → List Char
  | 0, l => l
  | _ + 1, [] => []
  | fuel + 1, c :: rest =>
    if pyStartsWith old (c :: rest) = true then
      new ++ replaceAux old new fuel ((c :: rest).drop old.length)
    else
      c :: replaceAux old new fuel rest

/-- Model of Python `str.replace(old, new)` on character lists. -/
def replaceL (old new l : List Char) : List Char :=
  replaceAux old new l.length l

/-- Model of Python `str.replace(old, new)` on strings. -/
def pyReplace (old new s : String) : String :=
  String.mk (replaceL old.data new.data s.data)

/-- Characters Python `str.strip()` removes (ASCII whitespace). -/
def isPySpace (c : Char) : Bool :=
  c == ' ' || c == '\t' || c == '\n' || c == '\r' || c == '\x0b' || c == '\x0c'

/-- Model of Python `str.strip()`: drop leading and trailing whitespace. -/
def pyStrip (s : String) : String :=
  String.mk (((s.data.dropWhile isPySpace).reverse.dropWhile isPySpace).reverse)

/-! ## Configuration constants (`menuparser.py`, lines 32-53) -/

/-- `DEFAULT_COLOR` from the source: very light yellow. -/
def DEFAULT_COLOR : String := "#f0eb93"

/-- `COLOR_MAPPING` from the source, in source order. -/
def COLOR_MAPPING : List (String × String) :=
  [("soep", "#fdb85b"),
   ("soup", "#fdb85b"),
   ("menu 1", "#68b6f3"),
   ("dag menu", "#68b6f3"),
   ("dagmenu", "#68b6f3"),
   ("health", "#ff9861"),
   ("vis", "#ff9861"),
   ("fish", "#ff9861"),
   ("menu 2", "#cc93d5"),
   ("meals of the world", "#cc93d5"),
   ("fairtrade", "#cc93d5"),
   ("fairtrade menu", "#cc93d5"),
   ("veggie", "#87b164"),
   ("veggiedag", "#87b164"),
   ("pasta", "#de694a"),
   ("pasta bar", "#de694a"),
   ("wok", "#6c4c42")]

/-- `CAMPUS_NAMES` from the source. -/
def CAMPUS_NAMES : List String := ["etterbeek", "jette"]

/-! ## Dates (`datetime.date` and `timedelta(days=1)`) -/

/-- A `datetime.date` value: the constructor `datetime_date` enforces the
validity invariant, so a `Date` obtained from it is well-formed. -/
structure Date where
  year : Nat
  month : Nat
  day : Nat
deriving DecidableEq, Repr

/-- Gregorian leap-year rule, as `calendar.isleap` / `datetime` use it. -/
def isLeap (y : Nat) : Bool :=
  y % 4 == 0 && (y % 100 != 0 || y % 400 == 0)

/-- Number of days in a month of a given year. -/
def daysInMonth (y m : Nat) : Nat :=
  if m = 2 then (if isLeap y then 29 else 28)
  else if m = 4 ∨ m = 6 ∨ m = 9 ∨ m = 11 then 30
  else 31

/-- The argument ranges `datetime.date(y, m, d)` accepts
(`MINYEAR = 1`, `MAXYEAR = 9999`). -/
def IsValidDate (y m d : Nat) : Prop :=
  1 ≤ y ∧ y ≤ 9999 ∧ 1 ≤ m ∧ m ≤ 12 ∧ 1 ≤ d ∧ d ≤ daysInMonth y m

instance (y m d : Nat) : Decidable (IsValidDate y m d) := by
  unfold IsValidDate; infer_instance

/-- Model of the `datetime.date(y, m, d)` constructor: `ValueError` on
out-of-range arguments. -/
def datetime_date (y m d : Nat) : Except PyExc Date :=
  if IsValidDate y m d then Except.ok ⟨y, m, d⟩ else Except.error PyExc.valueError

/-- Model of `d + datetime.timedelta(days=1)`: `OverflowError` past
`date.max = 9999-12-31`. -/
def date_succ (d : Date) : Except PyExc Date :=
  if d.day < daysInMonth d.year d.month then Except.ok ⟨d.year, d.month, d.day + 1⟩
  else if d.month < 12 then Except.ok ⟨d.year, d.month + 1, 1⟩
  else if d.year < 9999 then Except.ok ⟨d.year + 1, 1, 1⟩
  else Except.error PyExc.overflowError

/-! ## Basic parsing functions (`menuparser.py`, lines 59-127) -/

/-- `normalize_text` from the source: replace the non-breaking space with a
regular space and strip surrounding whitespace. -/
def normalize_text (text : String) : String :=
  pyStrip (pyReplace "\xa0" " " text)

/-- `check_title` from the source: lower-case the line, require the
substring `menu` and some campus name, then pick campus (loop over
`CAMPUS_NAMES`, each match overwriting) and language (`week menu` sets
`en`, then `weekmenu` overwrites with `nl`), and return
`campus ++ "." ++ language`. -/
def check_title (line : String) : Option String :=
  let l := pyLower line
  let has_menu := pyIn "menu" l
  let has_campus := CAMPUS_NAMES.any (fun p => pyIn p l)
  if !(has_menu && has_campus) then none
  else
    let campus := CAMPUS_NAMES.foldl (fun acc c => if pyIn c l then c else acc) "unknown"
    let language := "unknown"
    let language := if pyIn "week menu" l then "en" else language
    let language := if pyIn "weekmenu" l then "nl" else language
    some (campus ++ "." ++ language)

/-- `check_date` from the source: strip trailing colons, split on `.`,
keep the numeric tokens; with exactly three tokens `[dd, mm, yyyy]`,
reject `yyyy % 1000 < 18`, else build
`datetime.date(2000 + yyyy % 1000, mm, dd)` (which may raise); any other
token count yields `None`. -/
def check_date (line : String) : Except PyExc (Option Date) :=
  let stripped := pyRstrip ':' line.data
  let parts := (pySplit '.' stripped).filter pyIsdigit
  match parts with
  | [a, b, c] =>
    if pyInt c % 1000 < 18 then Except.ok none
    else Except.map some (datetime_date (2000 + pyInt c % 1000) (pyInt b) (pyInt a))
  | _ => Except.ok none

/-- A parsed menu line: the dict
`{'name': ..., 'dish': ..., 'color': ...}` the source builds. -/
structure MenuItem where
  name : String
  dish : String
  color : String
deriving DecidableEq, Repr

/-- `parse_menu` from the source: split on `:`, take `m[0]` (the only
operation in the body that could raise) as the name and rejoin the rest
as the dish, normalize both, drop the week-menu boilerplate from the
name, and look the lower-cased name up in `COLOR_MAPPING` with
`DEFAULT_COLOR` as fallback. -/
def parse_menu (m : String) : Except PyExc MenuItem :=
  let parts := pySplit ':' m.data
  match pyIndex parts 0 with
  | Except.error e => Except.error e
  | Except.ok c0 =>
    let menu_name := normalize_text (String.mk c0)
    let menu_dish := normalize_text (String.mk (pyJoin ':' (parts.drop 1)))
    let menu_name := pyReplace " van de week" "" menu_name
    let menu_name := pyReplace " of the week" "" menu_name
    let menu_color := (COLOR_MAPPING.lookup (pyLower menu_name)).getD DEFAULT_COLOR
    Except.ok ⟨menu_name, menu_dish, menu_color⟩

/-! ## `parse_restaurant` (`menuparser.py`, lines 164-201) -/

/-- One day's raw markup, reduced to what the parser reads from it: the
text content of its first paragraph and the text contents of its list
items. -/
structure DayBlock where
  date_string : String
  meals : List String
deriving DecidableEq, Repr

/-- A value appended to the `menus` list of a day.  The loop body is
`m = parse_menu(m.text_content())` inside `try`; on success the parsed
dict is appended, and were `parse_menu` to raise, the loop variable `m`
would still hold the raw element, which is what `menus.append(m)` would
then append. -/
inductive MealRecord where
  | item : MenuItem → MealRecord
  | element : String → MealRecord
deriving DecidableEq, Repr

/-- The meal loop of `parse_restaurant` over one day's list items. -/
def parse_meals (meals : List String) : List MealRecord :=
  meals.map (fun s =>
    match parse_menu s with
    | Except.ok v => MealRecord.item v
    | Except.error _ => MealRecord.element s)

/-- One element of the `data` list: `{'date': str(date), 'menus': menus}`.
`date` is `none` when both `check_date` and the carry-forward failed, in
which case the source serializes the Python `None` as the string
`"None"`. -/
structure MenuEntry where
  date : Option Date
  menus : List MealRecord
deriving DecidableEq, Repr

/-- The body of `parse_restaurant`'s day loop: resolve the date (raising
whatever `check_date` raises, since that call is not inside a `try`),
falling back to `prev_date + 1 day`, whose `OverflowError` is caught,
leaving `date = None` and `prev_date` unadvanced; then parse the meals
and append the entry.  Returns the new cursor and the appended entry. -/
def parse_day (prev_date : Date) (day : DayBlock) : Except PyExc (Date × MenuEntry) :=
  match check_date day.date_string with
  | Except.error e => Except.error e
  | Except.ok (some d) => Except.ok (d, ⟨some d, parse_meals day.meals⟩)
  | Except.ok none =>
    match date_succ prev_date with
    | Except.ok d => Except.ok (d, ⟨some d, parse_meals day.meals⟩)
    | Except.error _ => Except.ok (prev_date, ⟨none, parse_meals day.meals⟩)

/-- The day loop of `parse_restaurant`, threading the `prev_date` cursor. -/
def parse_week (prev_date : Date) : List DayBlock → Except PyExc (List MenuEntry)
  | [] => Except.ok []
  | day :: rest =>
    match parse_day prev_date day with
    | Except.error e => Except.error e
    | Except.ok (p, entry) =>
      match parse_week p rest with
      | Except.error e => Except.error e
      | Except.ok entries => Except.ok (entry :: entries)

/-- `parse_restaurant` from the source: seed the cursor with
`datetime.date(2000, 1, 1)` and run the day loop. -/
def parse_restaurant (nw : String × List DayBlock) : Except PyExc (String × List MenuEntry) :=
  match parse_week ⟨2000, 1, 1⟩ nw.2 with
  | Except.error e => Except.error e
  | Except.ok entries => Except.ok (nw.1, entries)

/-! ## `write_to_json` (`menuparser.py`, lines 207-213) -/

/-- `write_to_json` from the source, with the outcomes of its two
filesystem effects passed in: `open_result` is what
`io.open(os.path.join(SAVE_PATH, filename), 'w', ...)` does — this call
sits OUTSIDE the `try` block, so its exception propagates — and
`write_result` is what `f.write(unicode(json.dumps(...)))` does — this
call sits inside the `try`, so its exception is caught and logged.
Returns the filename written on the non-raising paths. -/
def write_to_json (open_result : Except PyExc Unit) (write_result : Except PyExc Unit)
    (name : String) : Except PyExc String :=
  let filename := pyLower name ++ ".json"
  match open_result with
  | Except.error e => Except.error e
  | Except.ok _ =>
    match write_result with
    | Except.error _ => Except.ok filename
    | Except.ok _ => Except.ok filename

/-- Reformulation of the menu item parser following the spec's words
(section 4.3): the name is the text BEFORE the first colon (boilerplate
suffixes removed), the dish is the text AFTER the first colon, both
normalized, and the color is a case-insensitive `COLOR_MAPPING` lookup
with `DEFAULT_COLOR` as fallback.  Refinement target for `parse_menu`. -/
def spec_menu_item (m : String) : MenuItem :=
  let raw_name := normalize_text (String.mk (m.data.takeWhile (fun x => !(x == ':'))))
  let name := pyReplace " of the week" "" (pyReplace " van de week" "" raw_name)
  let dish := normalize_text (String.mk ((m.data.dropWhile (fun x => !(x == ':'))).drop 1))
  ⟨name, dish, (COLOR_MAPPING.lookup (pyLower name)).getD DEFAULT_COLOR⟩

/-! ## Helper lemmas about the string primitives -/

theorem pySplit_ne_nil (sep : Char) (l : List Char) : pySplit sep l ≠ [] := by
  induction l with
  | nil => simp [pySplit]
  | cons c rest ih =>
    simp only [pySplit]
    split
    · simp
    · cases h : pySplit sep rest with
      | nil => exact absurd h ih
      | cons a t => simp

theorem pyJoin_pySplit (sep : Char) (l : List Char) : pyJoin sep (pySplit sep l) = l := by
  induction l with
  | nil => rfl
  | cons c rest ih =>
    simp only [pySplit]
    by_cases hc : c = sep
    · rw [if_pos hc]
      cases h : pySplit sep rest with
      | nil => exact absurd h (pySplit_ne_nil sep rest)
      | cons a t =>
        rw [h] at ih
        simp only [pyJoin, List.nil_append]
        rw [ih, hc]
    · rw [if_neg hc]
      cases h : pySplit sep rest with
      | nil => exact absurd h (pySplit_ne_nil sep rest)
      | cons a t =>
        rw [h] at ih
        cases t with
        | nil => simp only [pyJoin] at ih ⊢; rw [ih]
        | cons b bs =>
          simp only [pyJoin, List.cons_append] at ih ⊢
          rw [ih]

theorem pySplit_head_tail (sep : Char) (l : List Char) :
    ∃ t, pySplit sep l = l.takeWhile (fun x => !(x == sep)) :: t ∧
      pyJoin sep t = (l.dropWhile (fun x => !(x == sep))).drop 1 := by
  induction l with
  | nil => exact ⟨[], rfl, rfl⟩
  | cons c rest ih =>
    by_cases hc : c = sep
    · refine ⟨pySplit sep rest, ?_, ?_⟩
      · simp [pySplit, hc, List.takeWhile_cons]
      · simp [List.dropWhile_cons, hc, pyJoin_pySplit]
    · obtain ⟨t, h1, h2⟩ := ih
      refine ⟨t, ?_, ?_⟩
      · simp only [pySplit, if_neg hc, h1, List.takeWhile_cons]
        simp [hc]
      · simpa [List.dropWhile_cons, hc] using h2

/-- The refinement fact shared by C5 and C9: `parse_menu` always
succeeds, and its result is the first-colon-split reformulation. -/
theorem parse_menu_eq (m : String) : parse_menu m = Except.ok (spec_menu_item m) := by
  obtain ⟨t, h1, h2⟩ := pySplit_head_tail ':' m.data
  simp only [parse_menu, h1, pyIndex, List.get?, List.drop_one, List.tail_cons]
  simp only [spec_menu_item, h2]

theorem pySplit_append_sep (sep : Char) (A rest : List Char) (hA : ∀ x ∈ A, x ≠ sep) :
    pySplit sep (A ++ sep :: rest) = A :: pySplit sep rest := by
  induction A with
  | nil => simp [pySplit]
  | cons a A ih =>
    have ha : a ≠ sep := hA a (by simp)
    have ih2 := ih fun x hx => hA x (by simp [hx])
    simp only [List.cons_append, pySplit, if_neg ha, List.append_eq, ih2]

theorem pySplit_eq_single (sep : Char) (A : List Char) (hA : ∀ x ∈ A, x ≠ sep) :
    pySplit sep A = [A] := by
  induction A with
  | nil => rfl
  | cons a A ih =>
    have ha : a ≠ sep := hA a (by simp)
    have ih2 := ih fun x hx => hA x (by simp [hx])
    simp [pySplit, if_neg ha, ih2]

theorem pyRstrip_last_no_match (c : Char) (X : List Char) (d : Char) (hd : (d == c) = false) :
    pyRstrip c (X ++ [d]) = X ++ [d] := by
  simp only [pyRstrip, List.reverse_append, List.reverse_cons, List.reverse_nil,
    List.nil_append, List.singleton_append, List.dropWhile_cons, hd]
  simp

theorem pyRstrip_append_same (c : Char) (X : List Char) :
    pyRstrip c (X ++ [c]) = pyRstrip c X := by
  simp [pyRstrip, List.reverse_append, List.dropWhile_cons]

theorem pyIsdigit_spec {A : List Char} (h : pyIsdigit A = true) :
    A ≠ [] ∧ ∀ x ∈ A, x.isDigit = true := by
  rw [pyIsdigit, Bool.and_eq_true, List.all_eq_true] at h
  refine ⟨?_, fun x hx => h.2 x hx⟩
  intro hn
  subst hn
  simp at h

theorem digit_ne_dot {x : Char} (h : x.isDigit = true) : x ≠ '.' := by
  intro he
  rw [he] at h
  exact absurd h (by decide)

theorem digit_beq_colon_false {x : Char} (h : x.isDigit = true) : (x == ':') = false := by
  cases hbe : x == ':' with
  | false => rfl
  | true =>
    rw [beq_iff_eq] at hbe
    rw [hbe] at h
    exact absurd h (by decide)

theorem check_date_ok_year {s : String} {D : Date} (h : check_date s = Except.ok (some D)) :
    2018 ≤ D.year ∧ D.year ≤ 2999 := by
  simp only [check_date] at h
  rcases hp : (pySplit '.' (pyRstrip ':' s.data)).filter pyIsdigit with
    _ | ⟨a, _ | ⟨b, _ | ⟨c, _ | ⟨d, t⟩⟩⟩⟩ <;> rw [hp] at h
  · simp at h
  · simp at h
  · simp at h
  · have h' : (if pyInt c % 1000 < 18 then (Except.ok none : Except PyExc (Option Date))
        else Except.map some (datetime_date (2000 + pyInt c % 1000) (pyInt b) (pyInt a))) =
        Except.ok (some D) := h
    split_ifs at h' with hlt
    · simp at h'
    · simp only [datetime_date] at h'
      split_ifs at h' with hv
      · simp only [Except.map] at h'
        have hD : D = ⟨2000 + pyInt c % 1000, pyInt b, pyInt a⟩ := by
          cases h'
          rfl
        have hm : pyInt c % 1000 < 1000 := Nat.mod_lt _ (by omega)
        subst hD
        constructor <;> simp <;> omega
      · simp [Except.map] at h'
  · simp at h

theorem date_succ_of_year_lt {d : Date} (h : d.year < 9999) :
    ∃ e, date_succ d = Except.ok e ∧ e.year ≤ d.year + 1 := by
  unfold date_succ
  by_cases h1 : d.day < daysInMonth d.year d.month
  · rw [if_pos h1]
    exact ⟨_, rfl, Nat.le_succ _⟩
  · rw [if_neg h1]
    by_cases h2 : d.month < 12
    · rw [if_pos h2]
      exact ⟨_, rfl, Nat.le_succ _⟩
    · rw [if_neg h2, if_pos h]
      exact ⟨_, rfl, Nat.le_refl _⟩

/-! ## Claim theorems -/

/-- Claim C5: `parse_menu` splits on the first colon, normalizes both
halves, strips the week-menu boilerplate from the name, and resolves the
color by lower-cased lookup in `COLOR_MAPPING` with `DEFAULT_COLOR` as
fallback; in particular the two quoted examples evaluate as the spec
states. -/
theorem parse_menu_spec :
    parse_menu "Soep: Tomatensoep" = Except.ok ⟨"Soep", "Tomatensoep", "#fdb85b"⟩ ∧
    parse_menu "Unknown Dish: X" = Except.ok ⟨"Unknown Dish", "X", "#f0eb93"⟩ ∧
    ∀ m : String, parse_menu m = Except.ok (spec_menu_item m) := by
  refine ⟨by decide, by decide, parse_menu_eq⟩

/-- Claim C9: `parse_menu` is total over strings (it always returns
`Except.ok`), hence the per-item exception handler in the meal loop of
`parse_restaurant` is unreachable: every record the loop appends is a
parsed `MealRecord.item`, never the raw element. -/
theorem parse_menu_total :
    (∀ m : String, ∃ r : MenuItem, parse_menu m = Except.ok r) ∧
    (∀ meals : List String,
      (parse_meals meals).all
        (fun x => match x with
          | MealRecord.item _ => true
          | MealRecord.element _ => false) = true) := by
  refine ⟨fun m => ⟨spec_menu_item m, parse_menu_eq m⟩, ?_⟩
  intro meals
  induction meals with
  | nil => rfl
  | cons s rest ih =>
    simp only [parse_meals, List.map_cons, List.all_cons, parse_menu_eq s] at ih ⊢
    simpa using ih

/-- Claim C10: `check_date` is not total — on `"1.13.19"`, which has
exactly three numeric tokens and a year remainder of at least 18 but no
valid calendar month, it raises `ValueError` instead of returning the
sentinel, and `parse_restaurant` (which calls it outside any `try`)
propagates that exception. -/
theorem check_date_invalid_month_raises :
    ((pySplit '.' (pyRstrip ':' ("1.13.19" : String).data)).filter pyIsdigit).length = 3 ∧
    18 ≤ pyInt ("19" : String).data % 1000 ∧
    check_date "1.13.19" = Except.error PyExc.valueError ∧
    parse_restaurant ("x", [⟨"1.13.19", []⟩]) = Except.error PyExc.valueError := by
  decide

/-- Claim C7 (code bug exhibit): when `check_date` fails and the cursor
sits at `date.max` so that the carry-forward `prev_date + 1 day`
overflows, the day loop does NOT skip the day — contrary to the source's
own comment — but appends a `MenuEntry` whose date is the Python `None`,
while leaving the cursor unadvanced. -/
theorem parse_day_overflow_appends_none :
    check_date "" = Except.ok none ∧
    date_succ ⟨9999, 12, 31⟩ = Except.error PyExc.overflowError ∧
    parse_day ⟨9999, 12, 31⟩ ⟨"", []⟩ = Except.ok (⟨9999, 12, 31⟩, ⟨none, []⟩) ∧
    parse_week ⟨9999, 12, 31⟩ [⟨"", []⟩] = Except.ok [⟨none, []⟩] := by
  decide

/-- Claim C8 (counterexample): a permission error raised while OPENING
the output file occurs outside the `try` block of `write_to_json` and
propagates to the caller, contradicting the claim that every write-path
failure is caught inside the function. -/
theorem write_to_json_open_error_cex :
    write_to_json (Except.error PyExc.ioError) (Except.ok ()) "Etterbeek.NL" =
      Except.error PyExc.ioError ∧
    (Except.error PyExc.ioError : Except PyExc String) ≠ Except.ok "etterbeek.nl.json" := by
  decide

/-- Claim C8 (amended): failures raised by the serialization/write call
(`f.write(unicode(json.dumps(...)))`) are caught inside `write_to_json`
and do not propagate, but a failure raised by `io.open` itself — e.g. a
permission error on the output path — propagates to the caller. -/
theorem write_to_json_error_scope :
    ∀ (w : Except PyExc Unit) (e : PyExc) (name : String),
      write_to_json (Except.ok ()) w name = Except.ok (pyLower name ++ ".json") ∧
      write_to_json (Except.error e) w name = Except.error e := by
  intro w e name
  cases w with
  | ok _ => exact ⟨rfl, rfl⟩
  | error _ => exact ⟨rfl, rfl⟩

/-- Claim C1 (counterexample): the title `"etterbeek menu"` contains the
substring `menu` and a campus name but no language marker, yet
`check_title` returns `some "etterbeek.unknown"`, not the unresolved
sentinel `none` the claim requires. -/
theorem check_title_missing_language_cex :
    pyIn "menu" (pyLower "etterbeek menu") = true ∧
    pyIn "etterbeek" (pyLower "etterbeek menu") = true ∧
    pyIn "week menu" (pyLower "etterbeek menu") = false ∧
    pyIn "weekmenu" (pyLower "etterbeek menu") = false ∧
    check_title "etterbeek menu" = some "etterbeek.unknown" ∧
    (some "etterbeek.unknown" : Option String) ≠ none := by
  decide

/-- Claim C4 (counterexample): the title `"week menu etterbeek jette"`
contains both campus names, yet `check_title` reports campus `jette` —
the LAST name in the enumeration order of `CAMPUS_NAMES` — not
`etterbeek`, the first, as the claim requires. -/
theorem check_title_campus_first_cex :
    pyIn "etterbeek" (pyLower "week menu etterbeek jette") = true ∧
    pyIn "jette" (pyLower "week menu etterbeek jette") = true ∧
    check_title "week menu etterbeek jette" = some "jette.en" ∧
    ("jette.en" : String) ≠ "etterbeek.en" := by
  decide

/-- Claim C3: when block 1's date parses to `D` and blocks 2 and 3 have
unparseable date strings, `parse_restaurant` assigns block 2 the date
`D + 1 day` and block 3 the date `D + 2 days`, advancing the cursor to
each derived date (the successor always exists because `check_date`
only produces years up to 2999). -/
theorem parse_restaurant_carry_forward :
    ∀ (n : String) (b1 b2 b3 : DayBlock) (D : Date),
      check_date b1.date_string = Except.ok (some D) →
      check_date b2.date_string = Except.ok none →
      check_date b3.date_string = Except.ok none →
      ∃ D1 D2, date_succ D = Except.ok D1 ∧ date_succ D1 = Except.ok D2 ∧
        parse_restaurant (n, [b1, b2, b3]) =
          Except.ok (n, [⟨some D, parse_meals b1.meals⟩,
                         ⟨some D1, parse_meals b2.meals⟩,
                         ⟨some D2, parse_meals b3.meals⟩]) := by
  intro n b1 b2 b3 D h1 h2 h3
  obtain ⟨hy1, hy2⟩ := check_date_ok_year h1
  obtain ⟨D1, hD1, hD1y⟩ := date_succ_of_year_lt (d := D) (by omega)
  obtain ⟨D2, hD2, _⟩ := date_succ_of_year_lt (d := D1) (by omega)
  refine ⟨D1, D2, hD1, hD2, ?_⟩
  simp only [parse_restaurant, parse_week, parse_day, h1, h2, h3, hD1, hD2]

/-- Witness for C3 at a concrete week, crossing the 2020 leap day:
block 1 parses to 2020-02-28, blocks 2 and 3 get 2020-02-29 and
2020-03-01. -/
theorem parse_restaurant_carry_forward_witness :
    ∃ D1 D2, date_succ ⟨2020, 2, 28⟩ = Except.ok D1 ∧ date_succ D1 = Except.ok D2 ∧
      parse_restaurant ("etterbeek.nl",
        [⟨"28.2.20", ["Soep: Tomatensoep"]⟩, ⟨"today", []⟩, ⟨"tomorrow", []⟩]) =
        Except.ok ("etterbeek.nl",
          [⟨some ⟨2020, 2, 28⟩, parse_meals ["Soep: Tomatensoep"]⟩,
           ⟨some D1, parse_meals []⟩,
           ⟨some D2, parse_meals []⟩]) :=
  parse_restaurant_carry_forward "etterbeek.nl" ⟨"28.2.20", ["Soep: Tomatensoep"]⟩
    ⟨"today", []⟩ ⟨"tomorrow", []⟩ ⟨2020, 2, 28⟩ (by decide) (by decide) (by decide)

/-- Claim C4 (amended): when a lower-cased title contains more than one
campus name, `check_title` reports the campus that comes LAST in the
enumeration order of `CAMPUS_NAMES` (the loop overwrites the campus on
every match), independent of textual position. -/
theorem check_title_campus_last_wins :
    ∀ line : String,
      pyIn "menu" (pyLower line) = true →
      pyIn "etterbeek" (pyLower line) = true →
      pyIn "jette" (pyLower line) = true →
      ∃ lang, (lang = "nl" ∨ lang = "en" ∨ lang = "unknown") ∧
        check_title line = some ("jette" ++ "." ++ lang) := by
  intro line hm he hj
  cases hwm : pyIn "weekmenu" (pyLower line) with
  | true =>
    refine ⟨"nl", Or.inl rfl, ?_⟩
    simp [check_title, CAMPUS_NAMES, hm, he, hj, hwm]
  | false =>
    cases hwe : pyIn "week menu" (pyLower line) with
    | true =>
      refine ⟨"en", Or.inr (Or.inl rfl), ?_⟩
      simp [check_title, CAMPUS_NAMES, hm, he, hj, hwm, hwe]
    | false =>
      refine ⟨"unknown", Or.inr (Or.inr rfl), ?_⟩
      simp [check_title, CAMPUS_NAMES, hm, he, hj, hwm, hwe]

/-- Witness for C4 (amended) at a concrete title containing both campus
names: `jette`, the last campus in enumeration order, wins. -/
theorem check_title_campus_last_wins_witness :
    ∃ lang, (lang = "nl" ∨ lang = "en" ∨ lang = "unknown") ∧
      check_title "menu jette etterbeek" = some ("jette" ++ "." ++ lang) :=
  check_title_campus_last_wins "menu jette etterbeek" (by decide) (by decide) (by decide)

/-- Claim C1 (amended): `check_title` lower-cases the title and returns
`none` exactly when the substring `menu` or every campus name is
missing; when both are present it returns `"<campus>.<language>"`, where
the language is `nl` if `weekmenu` occurs, else `en` if `week menu`
occurs, else the sentinel string `unknown` — a missing language marker
therefore yields `"<campus>.unknown"`, not `none`. -/
theorem check_title_resolution :
    ∀ line : String,
      ((pyIn "menu" (pyLower line) = false ∨
        (pyIn "etterbeek" (pyLower line) = false ∧ pyIn "jette" (pyLower line) = false)) →
        check_title line = none) ∧
      (pyIn "menu" (pyLower line) = true →
       (pyIn "etterbeek" (pyLower line) = true ∨ pyIn "jette" (pyLower line) = true) →
        ∃ c, (c = "etterbeek" ∨ c = "jette") ∧ pyIn c (pyLower line) = true ∧
          ((pyIn "weekmenu" (pyLower line) = true →
             check_title line = some (c ++ "." ++ "nl")) ∧
           (pyIn "weekmenu" (pyLower line) = false →
            pyIn "week menu" (pyLower line) = true →
             check_title line = some (c ++ "." ++ "en")) ∧
           (pyIn "weekmenu" (pyLower line) = false →
            pyIn "week menu" (pyLower line) = false →
             check_title line = some (c ++ "." ++ "unknown")))) := by
  intro line
  constructor
  · rintro (hm | ⟨he, hj⟩)
    · simp [check_title, hm]
    · simp [check_title, CAMPUS_NAMES, he, hj]
  · intro hm hcampus
    cases hj : pyIn "jette" (pyLower line) with
    | true =>
      refine ⟨"jette", Or.inr rfl, hj, ?_, ?_, ?_⟩
      · intro hwm
        simp [check_title, CAMPUS_NAMES, hm, hj, hwm]
      · intro hwm hwe
        simp [check_title, CAMPUS_NAMES, hm, hj, hwm, hwe]
      · intro hwm hwe
        simp [check_title, CAMPUS_NAMES, hm, hj, hwm, hwe]
    | false =>
      have he : pyIn "etterbeek" (pyLower line) = true := by
        rcases hcampus with h | h
        · exact h
        · rw [hj] at h
          cases h
      refine ⟨"etterbeek", Or.inl rfl, he, ?_, ?_, ?_⟩
      · intro hwm
        simp [check_title, CAMPUS_NAMES, hm, he, hj, hwm]
      · intro hwm hwe
        simp [check_title, CAMPUS_NAMES, hm, he, hj, hwm, hwe]
      · intro hwm hwe
        simp [check_title, CAMPUS_NAMES, hm, he, hj, hwm, hwe]

/-- Witness for C1 (amended): a title with no campus resolves to `none`;
a title with campus and Dutch marker resolves to `"jette.nl"`. -/
theorem check_title_resolution_witness :
    check_title "snack corner" = none ∧
    check_title "jette weekmenu" = some ("jette" ++ "." ++ "nl") := by
  constructor
  · exact (check_title_resolution "snack corner").1 (Or.inl (by decide))
  · obtain ⟨c, hc, hin, hnl, _, _⟩ :=
      (check_title_resolution "jette weekmenu").2 (by decide) (Or.inr (by decide))
    have hres := hnl (by decide)
    rcases hc with hc | hc
    · rw [hc] at hin
      exact absurd hin (by decide)
    · rw [hc] at hres
      exact hres

/-- Claim C2: for every date string of the form `D.M.YY` or `DD.MM.YYYY`
(digit groups `A`, `B`, `C` joined by dots), optionally followed by a
trailing colon, `check_date` returns the calendar date with the year
expanded to `2000 + (year mod 1000)` when that remainder is at least 18
(provided day and month form a valid calendar date — see C10 for the
invalid case), returns the sentinel when the remainder is below 18, and
returns the sentinel whenever the numeric-token count differs from
three. -/
theorem check_date_form_spec :
    (∀ (s : String) (A B C T : List Char),
      s.data = A ++ '.' :: B ++ '.' :: C ++ T →
      (T = [] ∨ T = [':']) →
      pyIsdigit A = true → pyIsdigit B = true → pyIsdigit C = true →
      (A.length = 1 ∨ A.length = 2) →
      (B.length = 1 ∨ B.length = 2) →
      (C.length = 2 ∨ C.length = 4) →
      (18 ≤ pyInt C % 1000 →
        IsValidDate (2000 + pyInt C % 1000) (pyInt B) (pyInt A) →
        check_date s = Except.ok (some ⟨2000 + pyInt C % 1000, pyInt B, pyInt A⟩)) ∧
      (pyInt C % 1000 < 18 → check_date s = Except.ok none)) ∧
    (∀ s : String,
      ((pySplit '.' (pyRstrip ':' s.data)).filter pyIsdigit).length ≠ 3 →
      check_date s = Except.ok none) := by
  constructor
  · intro s A B C T hs hT hA hB hC _ _ _
    obtain ⟨hAne, hAdig⟩ := pyIsdigit_spec hA
    obtain ⟨hBne, hBdig⟩ := pyIsdigit_spec hB
    obtain ⟨hCne, hCdig⟩ := pyIsdigit_spec hC
    have hAnd : ∀ x ∈ A, x ≠ '.' := fun x hx => digit_ne_dot (hAdig x hx)
    have hBnd : ∀ x ∈ B, x ≠ '.' := fun x hx => digit_ne_dot (hBdig x hx)
    have hCnd : ∀ x ∈ C, x ≠ '.' := fun x hx => digit_ne_dot (hCdig x hx)
    have hCsplit := List.dropLast_append_getLast hCne
    have hlastd : (C.getLast hCne).isDigit = true := hCdig _ (List.getLast_mem hCne)
    have hrearr : A ++ '.' :: B ++ '.' :: C =
        (A ++ '.' :: B ++ '.' :: C.dropLast) ++ [C.getLast hCne] := by
      conv_lhs => rw [← hCsplit]
      simp [List.append_assoc]
    have base : pyRstrip ':' (A ++ '.' :: B ++ '.' :: C) = A ++ '.' :: B ++ '.' :: C := by
      rw [hrearr, pyRstrip_last_no_match ':' _ _ (digit_beq_colon_false hlastd), ← hrearr]
    have hstrip : pyRstrip ':' s.data = A ++ '.' :: B ++ '.' :: C := by
      rcases hT with rfl | rfl
      · rw [hs, List.append_nil]
        exact base
      · rw [hs, pyRstrip_append_same, base]
    have hsplit2 : pySplit '.' (A ++ '.' :: B ++ '.' :: C) = [A, B, C] := by
      rw [List.append_assoc, List.cons_append, pySplit_append_sep '.' A _ hAnd,
        pySplit_append_sep '.' B _ hBnd, pySplit_eq_single '.' C hCnd]
    have hfilter : List.filter pyIsdigit [A, B, C] = [A, B, C] := by
      simp [List.filter_cons, hA, hB, hC]
    have hkey : check_date s =
        (if pyInt C % 1000 < 18 then (Except.ok none : Except PyExc (Option Date))
         else Except.map some (datetime_date (2000 + pyInt C % 1000) (pyInt B) (pyInt A))) := by
      simp only [check_date, hstrip, hsplit2, hfilter]
    refine ⟨fun h18 hvalid => ?_, fun hlt => ?_⟩
    · rw [hkey, if_neg (by omega)]
      simp only [datetime_date, if_pos hvalid]
      rfl
    · rw [hkey, if_pos hlt]
  · intro s hlen
    simp only [check_date]
    rcases hp : (pySplit '.' (pyRstrip ':' s.data)).filter pyIsdigit with
      _ | ⟨a, _ | ⟨b, _ | ⟨c, _ | ⟨d, t⟩⟩⟩⟩
    · rfl
    · rfl
    · rfl
    · rw [hp] at hlen
      simp at hlen
    · rfl

/-- Witness for C2: `"2.10.19:"` (trailing colon, remainder 19) parses
to 2019-10-02; `"1.1.2010"` (remainder 10 < 18) and `"1.2"` (two
tokens) return the sentinel. -/
theorem check_date_form_spec_witness :
    check_date "2.10.19:" = Except.ok (some ⟨2019, 10, 2⟩) ∧
    check_date "1.1.2010" = Except.ok none ∧
    check_date "1.2" = Except.ok none := by
  refine ⟨?_, ?_, ?_⟩
  · have h := (check_date_form_spec.1 "2.10.19:" "2".data "10".data "19".data [':']
      (by decide) (Or.inr rfl) (by decide) (by decide) (by decide)
      (Or.inl (by decide)) (Or.inr (by decide)) (Or.inl (by decide))).1
      (by decide) (by decide)
    exact h.trans (by decide)
  · exact (check_date_form_spec.1 "1.1.2010" "1".data "1".data "2010".data []
      (by decide) (Or.inl rfl) (by decide) (by decide) (by decide)
      (Or.inl (by decide)) (Or.inl (by decide)) (Or.inr (by decide))).2 (by decide)
  · exact check_date_form_spec.2 "1.2" (by decide)
